import Mathlib

/-!
Shallow embedding of the web-test-agent runner (src/runner.ts together with the
step/tolerance schema in src/schema.ts), and proofs about its step executor,
signal filtering and verdict computation.

Modelling conventions:
- The browser is external: each step comes paired with the outcome of its
  action (`none` = the action completed, `some msg` = it raised with that
  message) and with the outcome of the best-effort failure screenshot capture.
- The JavaScript regular-expression engine is external: it is modelled as an
  oracle `RegexEngine` whose `compile` either yields a case-insensitive test
  function or fails (`none`), mirroring `new RegExp(p, "i")` throwing.
- `path.join(a, b)` is modelled as slash concatenation.
- Machine integers do not overflow in the modelled code paths; HTTP statuses
  are `Int`, counts are `Nat`.
-/

namespace WebTestAgent

/-- The closed action union from src/schema.ts (zod discriminated union on
`action`). Each variant carries exactly the fields of its schema object. -/
inductive Step where
  | navigate (url : Option String) (pathArg : Option String)
  | click (selector : String)
  | typeAction (selector : String) (text : String) (pressEnter : Option Bool)
  | fill (selector : String) (text : String)
  | waitForSelector (selector : String) (state : Option String) (timeoutMs : Option Nat)
  | expectVisible (selector : String) (timeoutMs : Option Nat)
  | expectText (selector : String) (text : String) (timeoutMs : Option Nat)
  | wait (ms : Nat)
  | screenshot (name : Option String)
deriving DecidableEq, Repr

/-- One entry of the runner's `stepErrors` array: `{ index, step, message, screenshot }`
(runner.ts line 52 and the push at line 137). -/
structure StepError where
  index : Nat
  step : Step
  message : String
  screenshot : Option String
deriving DecidableEq, Repr

/-- `path.join(outDir, error-step-i.png)` from runner.ts line 135. -/
def errorShot (outDir : String) (i : Nat) : String :=
  outDir ++ "/error-step-" ++ toString i ++ ".png"

/-- One call of `doStep(i, step)` (runner.ts lines 84-139): the action result is
supplied by the environment (`none` = completed, `some msg` = raised). On a
raise, the catch block computes the screenshot path, attempts a best-effort
capture whose own success `_captureOk` is swallowed, and records a `StepError`
whose `screenshot` field is the path regardless of the capture outcome. Returns
the entry pushed onto `stepErrors`, if any. -/
def doStep (outDir : String) (i : Nat) (step : Step) (res : Option String)
    (_captureOk : Bool) : Option StepError :=
  match res with
  | none => none
  | some msg =>
      some { index := i, step := step, message := msg,
             screenshot := some (errorShot outDir i) }

/-- The step loop of runner.ts lines 142-144, started at loop counter `k`:
`doStep` is called with the 1-based index `k+1` and the loop always proceeds to
the next step, accumulating the pushed `StepError`s in order. -/
def runStepErrorsFrom (outDir : String) : Nat → List (Step × Option String × Bool) → List StepError
  | _, [] => []
  | k, a :: rest =>
      (doStep outDir (k + 1) a.1 a.2.1 a.2.2).toList ++ runStepErrorsFrom outDir (k + 1) rest

/-- The full step loop: `for (let i = 0; ...) await doStep(i + 1, test.steps[i])`. -/
def runStepErrors (outDir : String) (acts : List (Step × Option String × Bool)) : List StepError :=
  runStepErrorsFrom outDir 0 acts

/-- The spec-level per-step outcome (spec section 3, StepOutcome): success flag,
failure message and screenshot path. Derived from the code's `doStep`: a step
whose `doStep` call pushes no error is a successful outcome. -/
structure StepOutcome where
  success : Bool
  message : Option String
  screenshot : Option String
deriving DecidableEq, Repr

/-- The outcome of one `doStep` call, read off from the error it pushes. -/
def outcomeOfStep (outDir : String) (i : Nat) (s : Step) (res : Option String)
    (cap : Bool) : StepOutcome :=
  match doStep outDir i s res cap with
  | none => { success := true, message := none, screenshot := none }
  | some e => { success := false, message := some e.message, screenshot := e.screenshot }

/-- The ordered outcome list of the step loop, one outcome per step. -/
def execOutcomesFrom (outDir : String) : Nat → List (Step × Option String × Bool) → List StepOutcome
  | _, [] => []
  | k, a :: rest =>
      outcomeOfStep outDir (k + 1) a.1 a.2.1 a.2.2 :: execOutcomesFrom outDir (k + 1) rest

/-- Outcomes of the full step loop (counter starting at 0, as in the source). -/
def execOutcomes (outDir : String) (acts : List (Step × Option String × Bool)) : List StepOutcome :=
  execOutcomesFrom outDir 0 acts

lemma execOutcomesFrom_length (outDir : String) :
    ∀ (acts : List (Step × Option String × Bool)) (k : Nat),
      (execOutcomesFrom outDir k acts).length = acts.length := by
  intro acts
  induction acts with
  | nil => intro k; rfl
  | cons a rest ih => intro k; simp [execOutcomesFrom, ih]

lemma execOutcomesFrom_get (outDir : String) :
    ∀ (acts : List (Step × Option String × Bool)) (k i : Nat)
      (hi : i < acts.length) (ho : i < (execOutcomesFrom outDir k acts).length),
      (execOutcomesFrom outDir k acts).get ⟨i, ho⟩ =
        outcomeOfStep outDir (k + i + 1) (acts.get ⟨i, hi⟩).1
          (acts.get ⟨i, hi⟩).2.1 (acts.get ⟨i, hi⟩).2.2 := by
  intro acts
  induction acts with
  | nil => intro k i hi ho; exact absurd hi (Nat.not_lt_zero i)
  | cons a rest ih =>
      intro k i hi ho
      cases i with
      | zero => simp [execOutcomesFrom]
      | succ j =>
          have hi2 : j < rest.length := Nat.lt_of_succ_lt_succ hi
          have ho2 : j < (execOutcomesFrom outDir (k + 1) rest).length := by
            rw [execOutcomesFrom_length]; exact hi2
          have h3 := ih (k + 1) j hi2 ho2
          rw [show k + (j + 1) + 1 = (k + 1) + j + 1 by omega]
          simpa [execOutcomesFrom] using h3

/-- C1: executing a run of n steps yields exactly one StepOutcome per step, in
step order, with the outcome list length equal to n; if the action at 0-based
index i raises with a message, the outcome at index i is failed and carries that
message (and the failure-screenshot path derived from the 1-based step index);
if the action at index i completes, the outcome at index i is successful.
Execution proceeds through all steps: every index below n has an outcome. -/
theorem c1_executor_outcomes (outDir : String) (acts : List (Step × Option String × Bool)) :
    (execOutcomes outDir acts).length = acts.length ∧
    ∀ (i : Nat) (hi : i < acts.length) (ho : i < (execOutcomes outDir acts).length),
      ((acts.get ⟨i, hi⟩).2.1 = none →
        (execOutcomes outDir acts).get ⟨i, ho⟩ =
          { success := true, message := none, screenshot := none }) ∧
      (∀ msg : String, (acts.get ⟨i, hi⟩).2.1 = some msg →
        (execOutcomes outDir acts).get ⟨i, ho⟩ =
          { success := false, message := some msg,
            screenshot := some (errorShot outDir (i + 1)) }) := by
  refine ⟨execOutcomesFrom_length outDir acts 0, ?_⟩
  intro i hi ho
  have hg := execOutcomesFrom_get outDir acts 0 i hi ho
  constructor
  · intro hnone
    show (execOutcomesFrom outDir 0 acts).get ⟨i, ho⟩ = _
    rw [hg, hnone]
    simp [outcomeOfStep, doStep]
  · intro msg hmsg
    show (execOutcomesFrom outDir 0 acts).get ⟨i, ho⟩ = _
    rw [hg, hmsg]
    simp [outcomeOfStep, doStep, Nat.zero_add]

/-- Concrete three-step run used to witness the executor theorem. -/
def c1acts : List (Step × Option String × Bool) :=
  [(Step.click "#a", none, true),
   (Step.wait 5, some "Timeout 10000ms exceeded", true),
   (Step.click "#b", none, true)]

/-- Witness for C1 at a concrete run: three steps, the middle one raising. -/
theorem c1_executor_outcomes_witness :
    (execOutcomes "out" c1acts).length = c1acts.length ∧
    (execOutcomes "out" c1acts).get ⟨1, by decide⟩ =
      { success := false, message := some "Timeout 10000ms exceeded",
        screenshot := some (errorShot "out" (1 + 1)) } := by
  refine ⟨(c1_executor_outcomes "out" c1acts).1, ?_⟩
  exact ((c1_executor_outcomes "out" c1acts).2 1 (by decide) (by decide)).2
    "Timeout 10000ms exceeded" rfl

/-- C10: whenever a step's action raises, `doStep` records a failed entry whose
`screenshot` field is always the derived path `error-step-i.png`, independently
of whether the best-effort capture itself succeeded: the field is computed
before the capture outcome is known and is never cleared. -/
theorem c10_failure_screenshot_path (outDir : String) (i : Nat) (s : Step)
    (msg : String) (cap : Bool) :
    doStep outDir i s (some msg) cap =
      some { index := i, step := s, message := msg,
             screenshot := some (errorShot outDir i) } ∧
    ∀ cap2 : Bool, doStep outDir i s (some msg) cap = doStep outDir i s (some msg) cap2 := by
  exact ⟨rfl, fun _ => rfl⟩

/-- One `consoleErrors` entry (runner.ts line 48): message type, text, location
elided (it is carried opaque and never inspected by the core). -/
structure ConsoleError where
  msgType : String
  text : String
deriving DecidableEq, Repr

/-- One `httpErrors` entry (runner.ts line 51): pushed for every response with
status >= 400. -/
structure HttpError where
  url : String
  status : Int
  statusText : String
deriving DecidableEq, Repr

/-- One `requestFailures` entry (runner.ts line 50): `failure` is the error text
with the `"unknown"` fallback already applied. -/
structure RequestFailure where
  url : String
  method : String
  failure : String
deriving DecidableEq, Repr

/-- The four raw, ordered, append-only signal logs accumulated by the page
event listeners (runner.ts lines 48-77). -/
structure Signals where
  consoleErrors : List ConsoleError
  pageErrors : List String
  requestFailures : List RequestFailure
  httpErrors : List HttpError
deriving DecidableEq, Repr

/-- The per-test `tolerate` object (src/schema.ts TolerateSchema): four optional
category toggles and three optional allowlists; an absent field is `none`. -/
structure Tolerate where
  httpErrors : Option Bool
  consoleErrors : Option Bool
  pageErrors : Option Bool
  requestFailures : Option Bool
  httpStatusAllowlist : Option (List Int)
  httpUrlAllowlist : Option (List String)
  consolePatternAllowlist : Option (List String)
deriving DecidableEq, Repr

/-- The empty `tolerate` object (`(test as any).tolerate ?? \x7b\x7d`). -/
def emptyTol : Tolerate := ⟨none, none, none, none, none, none, none⟩

/-- The four CLI `--ignore*` global override flags (runner.ts lines 17-20). -/
structure Overrides where
  ignoreHttpErrors : Bool
  ignoreConsoleErrors : Bool
  ignorePageErrors : Bool
  ignoreRequestFailures : Bool
deriving DecidableEq, Repr

/-- All-false overrides (the CLI defaults). -/
def ov0 : Overrides := ⟨false, false, false, false⟩

/-- Empty signal logs. -/
def emptySignals : Signals := ⟨[], [], [], []⟩

/-- JavaScript truthiness of an optional boolean field: `undefined` and `false`
are falsy, `true` is truthy. -/
def toggleTrue (o : Option Bool) : Bool := o.getD false

/-- The external JavaScript regular-expression engine, abstracted: `compile p`
is `some test` when `new RegExp(p, "i")` succeeds (with `test` its
case-insensitive match function), and `none` when construction throws. -/
structure RegexEngine where
  compile : String → Option (String → Bool)

/-- An engine on which every pattern fails to compile. -/
def noneEngine : RegexEngine := ⟨fun _ => none⟩

def isPrefixList : List Char → List Char → Bool
  | [], _ => true
  | _ :: _, [] => false
  | a :: as, b :: bs => a == b && isPrefixList as bs

def isSubList (pat : List Char) : List Char → Bool
  | [] => isPrefixList pat []
  | b :: bs => isPrefixList pat (b :: bs) || isSubList pat bs

/-- JavaScript `text.includes(p)`: literal substring containment. -/
def jsIncludes (text pat : String) : Bool := isSubList pat.data text.data

/-- The body of the `patterns.some(...)` callback in `matchesAnyPattern`
(runner.ts lines 152-159): try the entry as a regular expression; if it fails
to compile, fall back to a literal substring test. -/
def patMatch (E : RegexEngine) (text p : String) : Bool :=
  match E.compile p with
  | some re => re text
  | none => jsIncludes text p

/-- `matchesAnyPattern(text, patterns)` (runner.ts lines 150-160): `false` when
the pattern list is absent or empty, otherwise `some` over the entries. -/
def matchesAnyPattern (E : RegexEngine) (text : String) (patterns : Option (List String)) : Bool :=
  match patterns with
  | none => false
  | some ps => ps.any (patMatch E text)

/-- `Array.isArray(tolerate.httpStatusAllowlist) && tolerate.httpStatusAllowlist.includes(status)`
(runner.ts line 163). -/
def allowByStatus (t : Tolerate) (status : Int) : Bool :=
  match t.httpStatusAllowlist with
  | none => false
  | some l => l.contains status

/-- The keep-predicate of the `httpErrors.filter` callback (runner.ts
lines 162-166): keep the signal unless allowlisted by status or by URL. -/
def keepHttp (E : RegexEngine) (t : Tolerate) (h : HttpError) : Bool :=
  !(allowByStatus t h.status || matchesAnyPattern E h.url t.httpUrlAllowlist)

/-- `filteredHttpErrors` (runner.ts lines 162-166). -/
def filteredHttpErrors (E : RegexEngine) (t : Tolerate) (hs : List HttpError) : List HttpError :=
  hs.filter (keepHttp E t)

/-- The keep-predicate of the `consoleErrors.filter` callback (runner.ts line 168). -/
def keepConsole (E : RegexEngine) (t : Tolerate) (c : ConsoleError) : Bool :=
  !(matchesAnyPattern E c.text t.consolePatternAllowlist)

/-- `filteredConsoleErrors` (runner.ts line 168). -/
def filteredConsoleErrors (E : RegexEngine) (t : Tolerate) (cs : List ConsoleError) : List ConsoleError :=
  cs.filter (keepConsole E t)

/-- `filteredPageErrors = pageErrors.slice()` (runner.ts line 170): a copy, no
content filtering exists for this category. -/
def filteredPageErrors (ps : List String) : List String := ps

/-- `filteredRequestFailures = requestFailures.slice()` (runner.ts line 171). -/
def filteredRequestFailures (rs : List RequestFailure) : List RequestFailure := rs

/-- `pageOk` (runner.ts line 173). -/
def pageOk (ov : Overrides) (t : Tolerate) (ps : List String) : Bool :=
  ov.ignorePageErrors || toggleTrue t.pageErrors || ((filteredPageErrors ps).length == 0)

/-- `consoleOk` (runner.ts line 174). -/
def consoleOk (ov : Overrides) (E : RegexEngine) (t : Tolerate) (cs : List ConsoleError) : Bool :=
  ov.ignoreConsoleErrors || toggleTrue t.consoleErrors ||
    ((filteredConsoleErrors E t cs).length == 0)

/-- `httpOk` (runner.ts line 175). -/
def httpOk (ov : Overrides) (E : RegexEngine) (t : Tolerate) (hs : List HttpError) : Bool :=
  ov.ignoreHttpErrors || toggleTrue t.httpErrors || ((filteredHttpErrors E t hs).length == 0)

/-- `reqOk` (runner.ts line 176). -/
def reqOk (ov : Overrides) (t : Tolerate) (rs : List RequestFailure) : Bool :=
  ov.ignoreRequestFailures || toggleTrue t.requestFailures ||
    ((filteredRequestFailures rs).length == 0)

/-- `success` (runner.ts line 179): the overall verdict. -/
def success (ov : Overrides) (E : RegexEngine) (t : Tolerate) (S : Signals)
    (stepErrors : List StepError) : Bool :=
  (stepErrors.length == 0) && pageOk ov t S.pageErrors && consoleOk ov E t S.consoleErrors &&
    httpOk ov E t S.httpErrors && reqOk ov t S.requestFailures

lemma success_eq_true_iff (ov : Overrides) (E : RegexEngine) (t : Tolerate) (S : Signals)
    (errs : List StepError) :
    success ov E t S errs = true ↔
      errs = [] ∧ pageOk ov t S.pageErrors = true ∧ consoleOk ov E t S.consoleErrors = true ∧
        httpOk ov E t S.httpErrors = true ∧ reqOk ov t S.requestFailures = true := by
  simp [success, Bool.and_eq_true, List.length_eq_zero, and_assoc]

/-- C2: the overall verdict is success if and only if the number of failed
steps is zero AND all four signal categories are ok — a strict conjunction, so
any single failing step or any single not-ok category makes the verdict
failure. -/
theorem c2_verdict_conjunction (ov : Overrides) (E : RegexEngine) (t : Tolerate)
    (S : Signals) (errs : List StepError) :
    success ov E t S errs = true ↔
      errs.length = 0 ∧ pageOk ov t S.pageErrors = true ∧
        consoleOk ov E t S.consoleErrors = true ∧ httpOk ov E t S.httpErrors = true ∧
        reqOk ov t S.requestFailures = true := by
  simp [success, Bool.and_eq_true, and_assoc]

/-- C3: each of the four categories is ok exactly when its global override flag
is set, OR its tolerance toggle is true, OR its effective (filtered) signal
count is zero; in particular with `tolerate.pageErrors` true and one raw page
error, `pageOk` is true regardless of any allowlist state. -/
theorem c3_category_ok (ov : Overrides) (E : RegexEngine) (t : Tolerate) (S : Signals) :
    (pageOk ov t S.pageErrors = true ↔
      (ov.ignorePageErrors = true ∨ toggleTrue t.pageErrors = true ∨
        (filteredPageErrors S.pageErrors).length = 0)) ∧
    (consoleOk ov E t S.consoleErrors = true ↔
      (ov.ignoreConsoleErrors = true ∨ toggleTrue t.consoleErrors = true ∨
        (filteredConsoleErrors E t S.consoleErrors).length = 0)) ∧
    (httpOk ov E t S.httpErrors = true ↔
      (ov.ignoreHttpErrors = true ∨ toggleTrue t.httpErrors = true ∨
        (filteredHttpErrors E t S.httpErrors).length = 0)) ∧
    (reqOk ov t S.requestFailures = true ↔
      (ov.ignoreRequestFailures = true ∨ toggleTrue t.requestFailures = true ∨
        (filteredRequestFailures S.requestFailures).length = 0)) ∧
    (∀ (t2 : Tolerate) (e : String), toggleTrue t2.pageErrors = true →
      pageOk ov t2 [e] = true) := by
  refine ⟨?_, ?_, ?_, ?_, ?_⟩
  · simp [pageOk, Bool.or_eq_true, or_assoc]
  · simp [consoleOk, Bool.or_eq_true, or_assoc]
  · simp [httpOk, Bool.or_eq_true, or_assoc]
  · simp [reqOk, Bool.or_eq_true, or_assoc]
  · intro t2 e ht
    simp [pageOk, ht]

/-- A tolerance config with the pageErrors toggle set and every allowlist
populated, for the C3 witness. -/
def tolPageAndLists : Tolerate :=
  ⟨none, none, some true, none, some [401], some ["/auth/"], some ["Invalid login"]⟩

/-- Witness for C3: one raw page error, toggle set, full allowlists present —
`pageOk` is still true. -/
theorem c3_category_ok_witness :
    pageOk ov0 tolPageAndLists ["ReferenceError: x is not defined"] = true := by
  exact (c3_category_ok ov0 noneEngine emptyTol emptySignals).2.2.2.2
    tolPageAndLists "ReferenceError: x is not defined" rfl

/-- C4: allowlist matching is total: an entry is first tried as a (compiled,
case-insensitive) regular expression, and when compilation fails the match
degrades to a literal substring test; with the malformed entry in
`httpUrlAllowlist`, an httpError is suppressed exactly when its URL contains
the entry literally. -/
theorem c4_pattern_fallback (E : RegexEngine) (text entry : String) (h : HttpError) :
    (∀ re : String → Bool, E.compile entry = some re →
      matchesAnyPattern E text (some [entry]) = re text) ∧
    (E.compile entry = none →
      matchesAnyPattern E text (some [entry]) = jsIncludes text entry ∧
      filteredHttpErrors E { emptyTol with httpUrlAllowlist := some [entry] } [h] =
        (if jsIncludes h.url entry then [] else [h])) := by
  constructor
  · intro re hre
    simp [matchesAnyPattern, patMatch, hre]
  · intro hn
    constructor
    · simp [matchesAnyPattern, patMatch, hn]
    · cases hj : jsIncludes h.url entry <;>
        simp [filteredHttpErrors, List.filter, keepHttp, allowByStatus, emptyTol,
          matchesAnyPattern, patMatch, hn, hj]

/-- An engine that compiles every pattern to a fixed test function. -/
def allEngine : RegexEngine := ⟨fun _ => some (fun t => jsIncludes t "auth")⟩

/-- Concrete httpError signal used in witnesses. -/
def h4ex : HttpError := ⟨"http://localhost:3000/api/items", 500, "Internal Server Error"⟩

/-- Witness for C4: a compiling entry uses the compiled regex; the malformed
entry degrades to substring matching and leaves a bracket-free URL
unfiltered. -/
theorem c4_pattern_fallback_witness :
    matchesAnyPattern allEngine "http://x/auth/v1" (some ["p"]) =
      jsIncludes "http://x/auth/v1" "auth" ∧
    matchesAnyPattern noneEngine "abc[generic" (some ["["]) = jsIncludes "abc[generic" "[" ∧
    filteredHttpErrors noneEngine { emptyTol with httpUrlAllowlist := some ["["] } [h4ex] =
      (if jsIncludes h4ex.url "[" then [] else [h4ex]) := by
  refine ⟨?_, ?_, ?_⟩
  · exact (c4_pattern_fallback allEngine "http://x/auth/v1" "p" h4ex).1
      (fun t => jsIncludes t "auth") rfl
  · exact ((c4_pattern_fallback noneEngine "abc[generic" "[" h4ex).2 rfl).1
  · exact ((c4_pattern_fallback noneEngine "abc[generic" "[" h4ex).2 rfl).2

/-- C5: a raw httpError is excluded from the effective list exactly when its
status is in the status allowlist or its URL matches some URL-allowlist entry;
with `httpStatusAllowlist = [401]` and one raw 401 signal, the effective list
is empty and `httpOk` is true. -/
theorem c5_http_filtering (ov : Overrides) (E : RegexEngine) (t : Tolerate)
    (hs : List HttpError) (h : HttpError) :
    (h ∈ hs →
      (h ∉ filteredHttpErrors E t hs ↔
        (allowByStatus t h.status = true ∨
          matchesAnyPattern E h.url t.httpUrlAllowlist = true))) ∧
    (∀ h1 : HttpError, h1.status = 401 →
      filteredHttpErrors E { emptyTol with httpStatusAllowlist := some [401] } [h1] = [] ∧
      httpOk ov E { emptyTol with httpStatusAllowlist := some [401] } [h1] = true) := by
  constructor
  · intro hmem
    simp [filteredHttpErrors, List.mem_filter, hmem, keepHttp, Bool.or_eq_true]
    cases ha : allowByStatus t h.status <;> simp [ha]
  · intro h1 h401
    constructor
    · simp [filteredHttpErrors, List.filter, keepHttp, allowByStatus, h401, emptyTol]
    · simp [httpOk, filteredHttpErrors, List.filter, keepHttp, allowByStatus, h401, emptyTol]

/-- Concrete 401 httpError signal used in the C5 witness. -/
def h401ex : HttpError := ⟨"http://localhost:3000/api/login", 401, "Unauthorized"⟩

/-- Witness for C5 at a concrete 401 signal. -/
theorem c5_http_filtering_witness :
    (h401ex ∉ filteredHttpErrors noneEngine emptyTol [h401ex] ↔
      (allowByStatus emptyTol h401ex.status = true ∨
        matchesAnyPattern noneEngine h401ex.url emptyTol.httpUrlAllowlist = true)) ∧
    filteredHttpErrors noneEngine { emptyTol with httpStatusAllowlist := some [401] } [h401ex] = [] ∧
    httpOk ov0 noneEngine { emptyTol with httpStatusAllowlist := some [401] } [h401ex] = true := by
  refine ⟨?_, ?_, ?_⟩
  · exact (c5_http_filtering ov0 noneEngine emptyTol [h401ex] h401ex).1 (by simp)
  · exact ((c5_http_filtering ov0 noneEngine emptyTol [h401ex] h401ex).2 h401ex rfl).1
  · exact ((c5_http_filtering ov0 noneEngine emptyTol [h401ex] h401ex).2 h401ex rfl).2

lemma matchesAnyPattern_getD (E : RegexEngine) (text : String) (o : Option (List String)) :
    matchesAnyPattern E text o = (o.getD []).any (patMatch E text) := by
  cases o <;> rfl

lemma matchesAnyPattern_mono (E : RegexEngine) (text : String) (o o2 : Option (List String))
    (hsub : ∀ p, p ∈ o.getD [] → p ∈ o2.getD [])
    (hm : matchesAnyPattern E text o = true) : matchesAnyPattern E text o2 = true := by
  rw [matchesAnyPattern_getD] at hm ⊢
  rw [List.any_eq_true] at hm ⊢
  obtain ⟨p, hp, hmp⟩ := hm
  exact ⟨p, hsub p hp, hmp⟩

/-- Pointwise enlargement of a tolerance configuration: every toggle it sets
stays set and every allowlist only gains entries. -/
def TolerateLE (t t2 : Tolerate) : Prop :=
  (toggleTrue t.httpErrors = true → toggleTrue t2.httpErrors = true) ∧
  (toggleTrue t.consoleErrors = true → toggleTrue t2.consoleErrors = true) ∧
  (toggleTrue t.pageErrors = true → toggleTrue t2.pageErrors = true) ∧
  (toggleTrue t.requestFailures = true → toggleTrue t2.requestFailures = true) ∧
  (∀ s : Int, allowByStatus t s = true → allowByStatus t2 s = true) ∧
  (∀ p : String, p ∈ t.httpUrlAllowlist.getD [] → p ∈ t2.httpUrlAllowlist.getD []) ∧
  (∀ p : String, p ∈ t.consolePatternAllowlist.getD [] → p ∈ t2.consolePatternAllowlist.getD [])

lemma keepHttp_mono (E : RegexEngine) (t t2 : Tolerate) (hle : TolerateLE t t2)
    (h : HttpError) : keepHttp E t2 h = true → keepHttp E t h = true := by
  intro hk
  have h2 : (allowByStatus t2 h.status || matchesAnyPattern E h.url t2.httpUrlAllowlist) = false := by
    simpa [keepHttp] using hk
  have h1 : (allowByStatus t h.status || matchesAnyPattern E h.url t.httpUrlAllowlist) = false := by
    cases hx : (allowByStatus t h.status || matchesAnyPattern E h.url t.httpUrlAllowlist) with
    | false => rfl
    | true =>
        exfalso
        rw [Bool.or_eq_true] at hx
        have hx2 : (allowByStatus t2 h.status ||
            matchesAnyPattern E h.url t2.httpUrlAllowlist) = true := by
          rw [Bool.or_eq_true]
          rcases hx with hx | hx
          · exact Or.inl (hle.2.2.2.2.1 h.status hx)
          · exact Or.inr (matchesAnyPattern_mono E h.url _ _ hle.2.2.2.2.2.1 hx)
        rw [hx2] at h2
        exact Bool.true_eq_false_eq_False h2
  simp [keepHttp, h1]

lemma keepConsole_mono (E : RegexEngine) (t t2 : Tolerate) (hle : TolerateLE t t2)
    (c : ConsoleError) : keepConsole E t2 c = true → keepConsole E t c = true := by
  intro hk
  have h2 : matchesAnyPattern E c.text t2.consolePatternAllowlist = false := by
    simpa [keepConsole] using hk
  have h1 : matchesAnyPattern E c.text t.consolePatternAllowlist = false := by
    cases hx : matchesAnyPattern E c.text t.consolePatternAllowlist with
    | false => rfl
    | true =>
        exfalso
        rw [matchesAnyPattern_mono E c.text _ _ hle.2.2.2.2.2.2 hx] at h2
        exact Bool.true_eq_false_eq_False h2
  simp [keepConsole, h1]

lemma filter_nil_of_imp {α : Type} (p q : α → Bool) (l : List α)
    (himp : ∀ a, q a = true → p a = true) (hp : l.filter p = []) : l.filter q = [] := by
  rw [List.filter_eq_nil_iff] at hp ⊢
  intro a ha hqa
  exact hp a ha (himp a hqa)

lemma pageOk_mono (ov : Overrides) (t t2 : Tolerate) (ps : List String)
    (hle : TolerateLE t t2) : pageOk ov t ps = true → pageOk ov t2 ps = true := by
  simp only [pageOk, Bool.or_eq_true]
  rintro ((h | h) | h)
  · exact Or.inl (Or.inl h)
  · exact Or.inl (Or.inr (hle.2.2.1 h))
  · exact Or.inr h

lemma consoleOk_mono (ov : Overrides) (E : RegexEngine) (t t2 : Tolerate)
    (cs : List ConsoleError) (hle : TolerateLE t t2) :
    consoleOk ov E t cs = true → consoleOk ov E t2 cs = true := by
  simp only [consoleOk, Bool.or_eq_true, beq_iff_eq, List.length_eq_zero]
  rintro ((h | h) | h)
  · exact Or.inl (Or.inl h)
  · exact Or.inl (Or.inr (hle.2.1 h))
  · exact Or.inr (filter_nil_of_imp _ _ cs (keepConsole_mono E t t2 hle) h)

lemma httpOk_mono (ov : Overrides) (E : RegexEngine) (t t2 : Tolerate)
    (hs : List HttpError) (hle : TolerateLE t t2) :
    httpOk ov E t hs = true → httpOk ov E t2 hs = true := by
  simp only [httpOk, Bool.or_eq_true, beq_iff_eq, List.length_eq_zero]
  rintro ((h | h) | h)
  · exact Or.inl (Or.inl h)
  · exact Or.inl (Or.inr (hle.1 h))
  · exact Or.inr (filter_nil_of_imp _ _ hs (keepHttp_mono E t t2 hle) h)

lemma reqOk_mono (ov : Overrides) (t t2 : Tolerate) (rs : List RequestFailure)
    (hle : TolerateLE t t2) : reqOk ov t rs = true → reqOk ov t2 rs = true := by
  simp only [reqOk, Bool.or_eq_true]
  rintro ((h | h) | h)
  · exact Or.inl (Or.inl h)
  · exact Or.inl (Or.inr (hle.2.2.2.1 h))
  · exact Or.inr h

/-- Append one status code to the status allowlist. -/
def addHttpStatus (t : Tolerate) (x : Int) : Tolerate :=
  { t with httpStatusAllowlist := some (t.httpStatusAllowlist.getD [] ++ [x]) }

/-- Append one pattern to the URL allowlist. -/
def addHttpUrl (t : Tolerate) (p : String) : Tolerate :=
  { t with httpUrlAllowlist := some (t.httpUrlAllowlist.getD [] ++ [p]) }

/-- Append one pattern to the console allowlist. -/
def addConsolePattern (t : Tolerate) (p : String) : Tolerate :=
  { t with consolePatternAllowlist := some (t.consolePatternAllowlist.getD [] ++ [p]) }

/-- Set the pageErrors category toggle. -/
def tolPageToggle (t : Tolerate) : Tolerate := { t with pageErrors := some true }

/-- Set the consoleErrors category toggle. -/
def tolConsoleToggle (t : Tolerate) : Tolerate := { t with consoleErrors := some true }

/-- Set the httpErrors category toggle. -/
def tolHttpToggle (t : Tolerate) : Tolerate := { t with httpErrors := some true }

/-- Set the requestFailures category toggle. -/
def tolReqToggle (t : Tolerate) : Tolerate := { t with requestFailures := some true }

lemma tolerateLE_addHttpStatus (t : Tolerate) (x : Int) : TolerateLE t (addHttpStatus t x) := by
  refine ⟨fun h => h, fun h => h, fun h => h, fun h => h, ?_, fun p hp => hp, fun p hp => hp⟩
  intro s hs
  cases ht : t.httpStatusAllowlist with
  | none => simp [allowByStatus, ht] at hs
  | some l =>
      have hmem : s ∈ l := by
        rw [allowByStatus, ht] at hs
        simpa [List.contains, List.elem_iff] using hs
      rw [allowByStatus, addHttpStatus]
      simp [ht, List.contains, List.elem_iff]
      exact Or.inl hmem

lemma tolerateLE_addHttpUrl (t : Tolerate) (p : String) : TolerateLE t (addHttpUrl t p) := by
  refine ⟨fun h => h, fun h => h, fun h => h, fun h => h, fun s hs => hs, ?_, fun q hq => hq⟩
  intro q hq
  cases ht : t.httpUrlAllowlist with
  | none => rw [ht] at hq; simp at hq
  | some l =>
      rw [ht] at hq
      simp [addHttpUrl, ht]
      exact Or.inl (by simpa using hq)

lemma tolerateLE_addConsolePattern (t : Tolerate) (p : String) :
    TolerateLE t (addConsolePattern t p) := by
  refine ⟨fun h => h, fun h => h, fun h => h, fun h => h, fun s hs => hs, fun q hq => hq, ?_⟩
  intro q hq
  cases ht : t.consolePatternAllowlist with
  | none => rw [ht] at hq; simp at hq
  | some l =>
      rw [ht] at hq
      simp [addConsolePattern, ht]
      exact Or.inl (by simpa using hq)

/-- C6: verdict monotonicity. Enlarging the tolerance pointwise preserves a
success verdict for fixed raw signals and step outcomes; and each elementary
enlargement — setting a category toggle, or appending one entry to the status,
URL or console allowlist — is such an enlargement, so it can only move the
verdict from failure toward success, never the reverse. -/
theorem c6_verdict_monotone (ov : Overrides) (E : RegexEngine) (t t2 : Tolerate)
    (S : Signals) (errs : List StepError) :
    (TolerateLE t t2 → success ov E t S errs = true → success ov E t2 S errs = true) ∧
    (∀ x : Int, TolerateLE t (addHttpStatus t x)) ∧
    (∀ p : String, TolerateLE t (addHttpUrl t p)) ∧
    (∀ p : String, TolerateLE t (addConsolePattern t p)) ∧
    TolerateLE t (tolPageToggle t) ∧ TolerateLE t (tolConsoleToggle t) ∧
    TolerateLE t (tolHttpToggle t) ∧ TolerateLE t (tolReqToggle t) := by
  refine ⟨?_, tolerateLE_addHttpStatus t, tolerateLE_addHttpUrl t,
    tolerateLE_addConsolePattern t, ?_, ?_, ?_, ?_⟩
  · intro hle hsucc
    rw [success_eq_true_iff] at hsucc ⊢
    obtain ⟨he, hp, hc, hh, hr⟩ := hsucc
    exact ⟨he, pageOk_mono ov t t2 S.pageErrors hle hp,
      consoleOk_mono ov E t t2 S.consoleErrors hle hc,
      httpOk_mono ov E t t2 S.httpErrors hle hh,
      reqOk_mono ov t t2 S.requestFailures hle hr⟩
  · exact ⟨fun h => h, fun h => h, fun _ => rfl, fun h => h,
      fun s hs => hs, fun p hp => hp, fun p hp => hp⟩
  · exact ⟨fun h => h, fun _ => rfl, fun h => h, fun h => h,
      fun s hs => hs, fun p hp => hp, fun p hp => hp⟩
  · exact ⟨fun _ => rfl, fun h => h, fun h => h, fun h => h,
      fun s hs => hs, fun p hp => hp, fun p hp => hp⟩
  · exact ⟨fun h => h, fun h => h, fun h => h, fun _ => rfl,
      fun s hs => hs, fun p hp => hp, fun p hp => hp⟩

/-- Witness for C6: a successful empty run stays successful after appending 401
to the status allowlist. -/
theorem c6_verdict_monotone_witness :
    success ov0 noneEngine (addHttpStatus emptyTol 401) emptySignals [] = true := by
  exact (c6_verdict_monotone ov0 noneEngine emptyTol (addHttpStatus emptyTol 401)
      emptySignals []).1
    ((c6_verdict_monotone ov0 noneEngine emptyTol (addHttpStatus emptyTol 401)
      emptySignals []).2.1 401)
    (by decide)

/-- The whole tolerance-filtering pass (runner.ts lines 162-171) as one map on
the four signal logs. -/
def filterSignals (E : RegexEngine) (t : Tolerate) (S : Signals) : Signals :=
  ⟨filteredConsoleErrors E t S.consoleErrors, filteredPageErrors S.pageErrors,
   filteredRequestFailures S.requestFailures, filteredHttpErrors E t S.httpErrors⟩

lemma filter_idem {α : Type} (p : α → Bool) (l : List α) :
    (l.filter p).filter p = l.filter p := by
  induction l with
  | nil => rfl
  | cons a l ih => cases hpa : p a <;> simp [List.filter_cons, hpa, ih]

/-- C7: tolerance filtering is idempotent, and each effective log is an
order-preserving subset (a sublist) of its raw log, in every category. -/
theorem c7_filter_idempotent_sublist (E : RegexEngine) (t : Tolerate) (S : Signals) :
    filterSignals E t (filterSignals E t S) = filterSignals E t S ∧
    List.Sublist (filterSignals E t S).consoleErrors S.consoleErrors ∧
    List.Sublist (filterSignals E t S).pageErrors S.pageErrors ∧
    List.Sublist (filterSignals E t S).requestFailures S.requestFailures ∧
    List.Sublist (filterSignals E t S).httpErrors S.httpErrors := by
  refine ⟨?_, ?_, ?_, ?_, ?_⟩
  · simp [filterSignals, filteredConsoleErrors, filteredHttpErrors, filteredPageErrors,
      filteredRequestFailures, filter_idem]
  · exact List.filter_sublist _
  · exact List.Sublist.refl _
  · exact List.Sublist.refl _
  · exact List.filter_sublist _

/-- The `counts` object of the summary (runner.ts lines 187-193). -/
structure Counts where
  stepErrors : Nat
  pageErrors : Nat
  consoleErrors : Nat
  httpErrors : Nat
  requestFailures : Nat
deriving DecidableEq, Repr

/-- The `summary` object (runner.ts lines 181-199). -/
structure RunSummary where
  testName : String
  description : Option String
  baseUrl : String
  timestamp : String
  success : Bool
  counts : Counts
  stepErrors : List StepError
  pageErrors : List String
  consoleErrors : List ConsoleError
  httpErrors : List HttpError
  requestFailures : List RequestFailure
deriving DecidableEq, Repr

/-- Assembly of the summary from the verdict inputs (runner.ts lines 181-199),
fields in declaration order. -/
def buildSummary (ov : Overrides) (E : RegexEngine) (t : Tolerate) (testName : String)
    (description : Option String) (base ts : String) (S : Signals)
    (errs : List StepError) : RunSummary :=
  ⟨testName, description, base, ts, success ov E t S errs,
   ⟨errs.length, (filteredPageErrors S.pageErrors).length,
    (filteredConsoleErrors E t S.consoleErrors).length,
    (filteredHttpErrors E t S.httpErrors).length,
    (filteredRequestFailures S.requestFailures).length⟩,
   errs, filteredPageErrors S.pageErrors, filteredConsoleErrors E t S.consoleErrors,
   filteredHttpErrors E t S.httpErrors, filteredRequestFailures S.requestFailures⟩

/-- `argv.baseUrl ?? test.baseUrl` (runner.ts line 35). -/
def resolveBaseUrl (cliBase testBase : Option String) : Option String :=
  match cliBase with
  | some b => some b
  | none => testBase

/-- The control flow of `run()` around the pre-flight check (runner.ts
lines 31-213): with no resolvable base URL it throws before any step executes;
otherwise it runs to completion and returns the summary normally — the verdict
inside the summary does not alter the control flow. -/
def runModel (cliBase testBase : Option String) (rest : String → RunSummary) :
    Except String RunSummary :=
  match resolveBaseUrl cliBase testBase with
  | none => Except.error "No baseUrl provided. Pass --baseUrl or set baseUrl in the YAML test."
  | some b => Except.ok (rest b)

/-- The process exit status produced by `run().catch(e => ... process.exit(1))`
(runner.ts lines 251-254): 1 when `run()` threw, otherwise the default 0 —
`success` is never consulted. -/
def exitCode : Except String RunSummary → Nat
  | Except.error _ => 1
  | Except.ok _ => 0

/-- A concrete failed step entry for the C8 failing input. -/
def failErr : StepError :=
  ⟨1, Step.click "#submit", "Timeout 30000ms exceeded", some (errorShot "reports" 1)⟩

/-- A concrete completed run whose verdict is failure (one failed step). -/
def badSummary : RunSummary :=
  buildSummary ov0 noneEngine emptyTol "demo" none "http://localhost:3000"
    "2026-10-11T00:00:00.000Z" emptySignals [failErr]

/-- C8: evaluation of the exit-status model at the failing input. The runner
only exits non-zero when `run()` throws (such as the pre-flight missing-base-URL
check); a completed run with a failure verdict still exits 0, contradicting the
claim (and docs/SOP.md section 11) that the boolean verdict sets the process
exit status. -/
theorem c8_exit_status :
    badSummary.success = false ∧
    exitCode (runModel (some "http://localhost:3000") none (fun _ => badSummary)) = 0 ∧
    exitCode (runModel none none (fun _ => badSummary)) = 1 ∧
    ∀ (cliBase testBase : Option String) (rest : String → RunSummary),
      exitCode (runModel cliBase testBase rest) =
        (if resolveBaseUrl cliBase testBase = none then 1 else 0) := by
  refine ⟨rfl, rfl, rfl, ?_⟩
  intro cliBase testBase rest
  cases h : resolveBaseUrl cliBase testBase <;> simp [runModel, exitCode, h]

/-- C9 counterexample: with identical (empty) raw signals, a run consisting of
one screenshot step whose action raises has a failure verdict, while the run
without that step succeeds — so a screenshot step can affect the verdict. -/
theorem c9_screenshot_counterexample :
    success ov0 noneEngine emptyTol emptySignals
        (runStepErrors "reports" [(Step.screenshot none, some "screenshot failed", false)]) = false ∧
    success ov0 noneEngine emptyTol emptySignals (runStepErrors "reports" []) = true := by
  exact ⟨rfl, rfl⟩

lemma runStepErrorsFrom_length (outDir : String) :
    ∀ (acts : List (Step × Option String × Bool)) (k : Nat),
      (runStepErrorsFrom outDir k acts).length = acts.countP (fun a => a.2.1.isSome) := by
  intro acts
  induction acts with
  | nil => intro k; rfl
  | cons a rest ih =>
      intro k
      obtain ⟨s, res, cap⟩ := a
      cases res with
      | none => simp [runStepErrorsFrom, doStep, ih, List.countP_cons]
      | some msg =>
          simp [runStepErrorsFrom, doStep, ih, List.countP_cons]

lemma success_congr_length (ov : Overrides) (E : RegexEngine) (t : Tolerate) (S : Signals)
    (e1 e2 : List StepError) (h : e1.length = e2.length) :
    success ov E t S e1 = success ov E t S e2 := by
  simp only [success, h]

/-- C9 amended: a screenshot step whose action completes never affects the
verdict — inserting it anywhere leaves the verdict unchanged for identical raw
signals and other step results; but a screenshot step whose action raises is
recorded as a failed step like any other action and makes the verdict
failure. -/
theorem c9_screenshot_amended (ov : Overrides) (E : RegexEngine) (t : Tolerate) (S : Signals)
    (outDir : String) (pre post : List (Step × Option String × Bool)) (nm : Option String)
    (cap : Bool) :
    success ov E t S (runStepErrors outDir (pre ++ (Step.screenshot nm, none, cap) :: post)) =
      success ov E t S (runStepErrors outDir (pre ++ post)) ∧
    ∀ msg : String,
      success ov E t S
        (runStepErrors outDir (pre ++ (Step.screenshot nm, some msg, cap) :: post)) = false := by
  constructor
  · apply success_congr_length
    rw [runStepErrors, runStepErrors, runStepErrorsFrom_length, runStepErrorsFrom_length]
    simp [List.countP_append, List.countP_cons]
  · intro msg
    have hk : (runStepErrors outDir
        (pre ++ (Step.screenshot nm, some msg, cap) :: post)).length =
        pre.countP (fun a => a.2.1.isSome) + (post.countP (fun a => a.2.1.isSome) + 1) := by
      rw [runStepErrors, runStepErrorsFrom_length]
      simp [List.countP_append, List.countP_cons]
    cases hsucc : success ov E t S
        (runStepErrors outDir (pre ++ (Step.screenshot nm, some msg, cap) :: post)) with
    | false => rfl
    | true =>
        exfalso
        rw [success_eq_true_iff] at hsucc
        rw [hsucc.1] at hk
        simp only [List.length_nil] at hk
        omega

end WebTestAgent
